import Mathlib

/-!
Verification development for the `unison-io-speech` streaming session engine.

The definitions below are a shallow embedding of `src/vad.py`,
`src/websocket_handler.py` and (for the message shapes) `src/message_schema.py`.
Audio samples are modelled as real numbers: a decoded numpy array of dtype
`int16` / `int8` / `float32` becomes a `List ℝ` whose entries are the exact
values held by the array, together with an `AudioFormat` tag standing for the
array's dtype.  Floating-point arithmetic is idealised as real arithmetic.
-/

set_option autoImplicit false

namespace UnisonSpeech

/-- Audio sample formats accepted by `VoiceActivityDetector.process_chunk`
(`vad.py` lines 146-153).  An unknown format string raises in Python before
any state is touched; the embedding therefore ranges over the valid tags. -/
inductive AudioFormat where
  | pcm16
  | pcm8
  | float32
deriving DecidableEq

/-- VAD events (`"speech_start"` / `"speech_end"` in `vad.py`). -/
inductive VADEvent where
  | speech_start
  | speech_end
deriving DecidableEq

/-- `VADConfig` dataclass (`vad.py` lines 16-38). -/
structure VADConfig where
  energy_threshold : ℝ
  speech_pad_ms : ℕ
  silence_duration_ms : ℕ
  sample_rate : ℕ
  frame_duration_ms : ℕ

/-- `VADConfig.frame_size` property: `int(sample_rate * frame_duration_ms / 1000)`.
On naturals, Python's `int(...)` truncation of the nonnegative quotient is
`Nat` division. -/
def VADConfig.frame_size (c : VADConfig) : ℕ :=
  c.sample_rate * c.frame_duration_ms / 1000

/-- `VADConfig.speech_pad_frames` property: `int(speech_pad_ms / frame_duration_ms)`. -/
def VADConfig.speech_pad_frames (c : VADConfig) : ℕ :=
  c.speech_pad_ms / c.frame_duration_ms

/-- `VADConfig.silence_frames` property: `int(silence_duration_ms / frame_duration_ms)`. -/
def VADConfig.silence_frames (c : VADConfig) : ℕ :=
  c.silence_duration_ms / c.frame_duration_ms

/-- The default `VADConfig()` (threshold 0.01, 300 ms pad, 700 ms silence,
16 kHz, 30 ms frames). -/
noncomputable def defaultVADConfig : VADConfig :=
  { energy_threshold := 0.01
    speech_pad_ms := 300
    silence_duration_ms := 700
    sample_rate := 16000
    frame_duration_ms := 30 }

/-- The `"silence"` / `"speech"` states of the VAD state machine. -/
inductive VADState where
  | silence
  | speech
deriving DecidableEq

/-- Mutable state of `VoiceActivityDetector` (`vad.py` lines 49-55). -/
structure VoiceActivityDetector where
  config : VADConfig
  state : VADState
  speech_frames : ℕ
  silence_frames : ℕ
  energy_history : List ℝ
  max_history_size : ℕ

/-- `VoiceActivityDetector.__init__` with a given config: state `"silence"`,
both counters 0, empty history, history capacity 100. -/
def VoiceActivityDetector.init (c : VADConfig) : VoiceActivityDetector :=
  { config := c
    state := .silence
    speech_frames := 0
    silence_frames := 0
    energy_history := []
    max_history_size := 100 }

/-- A detector in its initial state with the default configuration, as built
by `VoiceActivityDetector()` and by `StreamingSession.__init__`. -/
noncomputable def defaultVAD : VoiceActivityDetector :=
  VoiceActivityDetector.init defaultVADConfig

/-- Per-dtype conversion done by `calculate_energy` (`vad.py` lines 77-80):
`int16` arrays are divided by 32768.0, every other dtype is merely cast to
float and used as-is.  Note that `int8` data is NOT rescaled by the code. -/
noncomputable def normSample : AudioFormat → ℝ → ℝ
  | .pcm16, x => x / 32768
  | _, x => x

/-- `VoiceActivityDetector.calculate_energy` (`vad.py` lines 63-84):
0.0 on an empty frame, otherwise `sqrt(mean(audio_float ** 2))` where
`audio_float` is the dtype-converted data of `normSample`. -/
noncomputable def calculate_energy (fmt : AudioFormat) (frame : List ℝ) : ℝ :=
  if frame.length = 0 then 0
  else Real.sqrt (((frame.map fun x => normSample fmt x ^ 2).sum) / frame.length)

/-- Normalisation claimed by the spec sentence behind claim C5: "16-bit signed
samples are divided by 32768, 8-bit signed samples are analogously divided by
their full-scale value, and float32 samples are used as-is".  The analogous
full-scale value of a signed 8-bit sample is 128. -/
noncomputable def claimedNormalizeC5 : AudioFormat → ℝ → ℝ
  | .pcm16, x => x / 32768
  | .pcm8, x => x / 128
  | .float32, x => x

/-- The energy function claimed by the spec sentence behind claim C5 (RMS of
the `claimedNormalizeC5`-normalised samples, 0.0 on an empty frame), used to
exhibit the divergence from the code on 8-bit input. -/
noncomputable def claimedRmsC5 (fmt : AudioFormat) (frame : List ℝ) : ℝ :=
  if frame = [] then 0
  else Real.sqrt (((frame.map fun x => claimedNormalizeC5 fmt x ^ 2).sum) / frame.length)

/-- Normalisation of the amended claim C5: 16-bit samples divided by 32768,
8-bit and float32 samples used as-is (matching the code's `else` branch). -/
noncomputable def amendedNormalizeC5 : AudioFormat → ℝ → ℝ
  | .pcm16, x => x / 32768
  | .pcm8, x => x
  | .float32, x => x

/-- RMS-of-normalised-samples as the amended claim C5 states it. -/
noncomputable def amendedRmsC5 (fmt : AudioFormat) (frame : List ℝ) : ℝ :=
  if frame = [] then 0
  else Real.sqrt (((frame.map fun x => amendedNormalizeC5 fmt x ^ 2).sum) / frame.length)

/-- History update in `process_frame` (`vad.py` lines 99-101): append the
energy, then `pop(0)` once if the length exceeds `max_history_size`. -/
def pushHistory (v : VoiceActivityDetector) (e : ℝ) : List ℝ :=
  let h := v.energy_history ++ [e]
  if v.max_history_size < h.length then h.tail else h

/-- `VoiceActivityDetector.process_frame` (`vad.py` lines 86-132): compute the
frame energy, append it to the history, then run one step of the
Silence/Speech hysteresis machine, returning the emitted event (if any)
and the updated detector. -/
noncomputable def processFrame (fmt : AudioFormat) (frame : List ℝ)
    (v : VoiceActivityDetector) : Option VADEvent × VoiceActivityDetector :=
  let energy := calculate_energy fmt frame
  let v1 : VoiceActivityDetector := { v with energy_history := pushHistory v energy }
  match v1.state with
  | .silence =>
      if v1.config.energy_threshold < energy then
        if v1.config.speech_pad_frames ≤ v1.speech_frames + 1 then
          (some .speech_start,
            { v1 with state := .speech, speech_frames := v1.speech_frames + 1,
                      silence_frames := 0 })
        else
          (none, { v1 with speech_frames := v1.speech_frames + 1 })
      else
        (none, { v1 with speech_frames := 0 })
  | .speech =>
      if ¬ v1.config.energy_threshold < energy then
        if v1.config.silence_frames ≤ v1.silence_frames + 1 then
          (some .speech_end,
            { v1 with state := .silence, silence_frames := v1.silence_frames + 1,
                      speech_frames := 0 })
        else
          (none, { v1 with silence_frames := v1.silence_frames + 1 })
      else
        (none, { v1 with silence_frames := 0 })

/-- `k` sequential calls to `process_frame` on an explicit list of frames,
recording each call's (optional) event in order.  This is the sequential
reference against which `process_chunk` is compared (claim C3). -/
noncomputable def processFrames (fmt : AudioFormat) (frames : List (List ℝ))
    (v : VoiceActivityDetector) : List (Option VADEvent) × VoiceActivityDetector :=
  match frames with
  | [] => ([], v)
  | f :: rest =>
      let p := processFrame fmt f v
      let q := processFrames fmt rest p.2
      (p.1 :: q.1, q.2)

/-- `VoiceActivityDetector.process_chunk` (`vad.py` lines 134-169): walk the
decoded sample buffer in strides of `frame_size`, zero-pad a short final
frame, feed each frame to `process_frame`, and collect only the emitted
events.  (Python's `range` with stride 0 raises before the loop runs; the
`frame_size = 0` guard returns the empty result, and every theorem about
this function assumes `0 < frame_size`.) -/
noncomputable def processChunk (fmt : AudioFormat) (audioData : List ℝ)
    (v : VoiceActivityDetector) : List VADEvent × VoiceActivityDetector :=
  let fs := v.config.frame_size
  if h : fs = 0 ∨ audioData = [] then ([], v)
  else
    let frame0 := audioData.take fs
    let frame := if frame0.length < fs
      then frame0 ++ List.replicate (fs - frame0.length) 0 else frame0
    let p := processFrame fmt frame v
    let q := processChunk fmt (audioData.drop fs) p.2
    (p.1.toList ++ q.1, q.2)
termination_by audioData.length
decreasing_by
  push_neg at h
  obtain ⟨h1, h2⟩ := h
  simp only [List.length_drop]
  have hfs : 0 < v.config.frame_size := Nat.pos_of_ne_zero h1
  have hlen : 0 < audioData.length := List.length_pos.mpr h2
  omega

/-- The consecutive `frame_size`-sample frames of a decoded buffer, without
padding; used only to state claim C3 (for a buffer of length `k * frame_size`
these are exactly the `k` consecutive frames). -/
noncomputable def consecFrames (fs : ℕ) (l : List ℝ) : List (List ℝ) :=
  if h : fs = 0 ∨ l = [] then []
  else l.take fs :: consecFrames fs (l.drop fs)
termination_by l.length
decreasing_by
  push_neg at h
  obtain ⟨h1, h2⟩ := h
  simp only [List.length_drop]
  have hfs : 0 < fs := Nat.pos_of_ne_zero h1
  have hlen : 0 < l.length := List.length_pos.mpr h2
  omega

/-- `VoiceActivityDetector.reset` (`vad.py` lines 171-177). -/
def VoiceActivityDetector.reset (v : VoiceActivityDetector) : VoiceActivityDetector :=
  { v with state := .silence, speech_frames := 0, silence_frames := 0,
           energy_history := [] }

/-- `VoiceActivityDetector.is_speaking` (`vad.py` lines 183-185). -/
def VoiceActivityDetector.vadSpeaking (v : VoiceActivityDetector) : Bool :=
  v.state = .speech

/-- `VoiceActivityDetector.get_average_energy` (`vad.py` lines 187-191). -/
noncomputable def getAverageEnergy (v : VoiceActivityDetector) : ℝ :=
  if v.energy_history = [] then 0
  else v.energy_history.sum / v.energy_history.length

/-- `np.percentile(a, p)` with the default linear interpolation: sort
ascending, take the fractional index `p * (n - 1) / 100`, and interpolate
linearly between the two neighbouring order statistics. -/
noncomputable def npPercentile (l : List ℝ) (p : ℝ) : ℝ :=
  let s := l.mergeSort fun a b => decide (a ≤ b)
  let idx : ℝ := p * ((s.length : ℝ) - 1) / 100
  let lo : ℕ := ⌊idx⌋.toNat
  s.getD lo 0 + (idx - lo) * (s.getD (lo + 1) 0 - s.getD lo 0)

/-- `VoiceActivityDetector.adapt_threshold` (`vad.py` lines 193-209): a no-op
with fewer than 10 history samples; otherwise recompute the percentile and
replace the configured threshold only when the absolute change exceeds
0.005. -/
noncomputable def adaptThreshold (p : ℝ) (v : VoiceActivityDetector) :
    VoiceActivityDetector :=
  if v.energy_history.length < 10 then v
  else
    let newThreshold := npPercentile v.energy_history p
    if 0.005 < |newThreshold - v.config.energy_threshold| then
      { v with config := { v.config with energy_threshold := newThreshold } }
    else v

/-- Status values of the server `Status` message (`message_schema.py` line 89). -/
inductive StatusVal where
  | connected
  | listening
  | processing
  | speaking
deriving DecidableEq

/-- Outbound server messages, restricted to the payload fields the session
logic determines (`message_schema.py`): the transcript's `is_final` flag, the
VAD event and its `energy`, the barge-in's `cancelled_sequence`, the error's
`code` string, and the status value.  Timestamps (wall-clock) and free text
are omitted from the embedding. -/
inductive ServerMsg where
  | transcript (is_final : Bool)
  | vadEvent (event : VADEvent) (energy : ℝ)
  | bargeIn (cancelled_sequence : ℕ)
  | error (code : String)
  | status (status : StatusVal)

/-- Control actions of the client `Control` message (`message_schema.py` line 28). -/
inductive ControlAction where
  | start_listening
  | stop_listening
  | cancel_tts
deriving DecidableEq

/-- State of one `StreamingSession` (`websocket_handler.py` lines 37-48).
The audio buffer holds decoded pcm16 samples (the session always passes
`format="pcm16"` to the VAD); one sample occupies two bytes on the wire. -/
structure Session where
  session_id : String
  is_listening : Bool
  is_speaking : Bool
  audio_buffer : List ℝ
  sequence_counter : ℕ
  tts_sequence : Option ℕ
  vad : VoiceActivityDetector

/-- `StreamingSession.__init__`: fresh VAD with the default config, not
listening, not speaking, empty buffer, no in-flight TTS sequence. -/
noncomputable def initSession (sid : String) : Session :=
  { session_id := sid
    is_listening := false
    is_speaking := false
    audio_buffer := []
    sequence_counter := 0
    tts_sequence := none
    vad := VoiceActivityDetector.init defaultVADConfig }

/-- Byte length of the session's audio buffer: the buffer holds 16-bit
samples, two bytes each (`len(self.audio_buffer)` in the Python code counts
bytes). -/
def Session.bufferBytes (s : Session) : ℕ :=
  2 * s.audio_buffer.length

/-- `StreamingSession.handle_barge_in` (`websocket_handler.py` lines 175-193):
no-op when `tts_sequence` is unset; otherwise emit `BargeIn(tts_sequence)`,
clear `is_speaking` / `tts_sequence`, set `is_listening`, and emit
`Status(listening)`. -/
noncomputable def handleBargeIn (s : Session) : List ServerMsg × Session :=
  match s.tts_sequence with
  | none => ([], s)
  | some seq =>
      ([.bargeIn seq, .status .listening],
        { s with is_speaking := false, tts_sequence := none, is_listening := true })

/-- `StreamingSession.generate_partial_transcript` (`websocket_handler.py`
lines 110-124): emits one non-final transcript and touches no session state. -/
def generatePartialTranscript (s : Session) : List ServerMsg × Session :=
  ([.transcript false], s)

/-- `StreamingSession.generate_final_transcript` (`websocket_handler.py`
lines 126-148): nothing on an empty buffer; otherwise emit one final
transcript and clear the buffer. -/
noncomputable def generateFinalTranscript (s : Session) : List ServerMsg × Session :=
  if s.audio_buffer = [] then ([], s)
  else ([.transcript true], { s with audio_buffer := [] })

/-- Body of the per-event loop of `handle_audio_input` (`websocket_handler.py`
lines 75-96): emit the `VadEvent` message (whose energy field is the
average energy of the already-updated VAD), then on `speech_start` set
`is_listening`, run the barge-in check, and emit `Status(listening)`;
on `speech_end` clear `is_listening`, flush a final transcript, and emit
`Status(processing)`. -/
noncomputable def handleVadEvent (e : VADEvent) (s : Session) :
    List ServerMsg × Session :=
  let vadMsg := ServerMsg.vadEvent e (getAverageEnergy s.vad)
  match e with
  | .speech_start =>
      let s1 := { s with is_listening := true }
      let p := if s1.is_speaking = true ∧ s1.tts_sequence ≠ none
        then handleBargeIn s1 else ([], s1)
      (vadMsg :: (p.1 ++ [.status .listening]), p.2)
  | .speech_end =>
      let s1 := { s with is_listening := false }
      let p := generateFinalTranscript s1
      (vadMsg :: (p.1 ++ [.status .processing]), p.2)

/-- The `for event in vad_events` loop of `handle_audio_input`, threading the
session state and concatenating the emitted messages in order. -/
noncomputable def handleVadEvents (events : List VADEvent) (s : Session) :
    List ServerMsg × Session :=
  match events with
  | [] => ([], s)
  | e :: rest =>
      let p := handleVadEvent e s
      let q := handleVadEvents rest p.2
      (p.1 ++ q.1, q.2)

/-- Final stage of `handle_audio_input` (`websocket_handler.py` lines 98-100):
when the VAD is currently in the Speech state and the buffer holds more than
16000 bytes, emit a partial transcript (leaving the state untouched). -/
noncomputable def speechPartialStage (s : Session) : List ServerMsg × Session :=
  if s.vad.vadSpeaking = true ∧ 16000 < s.bufferBytes
  then generatePartialTranscript s else ([], s)

/-- `StreamingSession.handle_audio_input` (`websocket_handler.py` lines
58-108).  The inbound payload is modelled post-base64: `none` stands for a
`data` field whose decoding raises (the `except` branch, which emits one
`Error` with code `"audio_processing_error"` and leaves the session intact);
`some samples` stands for a successfully decoded pcm16 chunk, which is
appended to the buffer, run through the VAD, and whose events drive the
message loop, followed by the partial-transcript stage. -/
noncomputable def handleAudioInput (data : Option (List ℝ)) (s : Session) :
    List ServerMsg × Session :=
  match data with
  | none => ([.error "audio_processing_error"], s)
  | some samples =>
      let s1 := { s with audio_buffer := s.audio_buffer ++ samples }
      let pv := processChunk .pcm16 samples s.vad
      let s2 := { s1 with vad := pv.2 }
      let pe := handleVadEvents pv.1 s2
      let pp := speechPartialStage pe.2
      (pe.1 ++ pp.1, pp.2)

/-- `StreamingSession.handle_control` (`websocket_handler.py` lines 150-173). -/
noncomputable def handleControl (a : ControlAction) (s : Session) :
    List ServerMsg × Session :=
  match a with
  | .start_listening =>
      ([.status .listening],
        { s with is_listening := true, vad := s.vad.reset })
  | .stop_listening =>
      let s1 := { s with is_listening := false }
      let p := if s1.vad.vadSpeaking = true then generateFinalTranscript s1 else ([], s1)
      (p.1 ++ [.status .connected], { p.2 with vad := p.2.vad.reset })
  | .cancel_tts =>
      if s.is_speaking = true ∧ s.tts_sequence ≠ none then handleBargeIn s
      else ([], s)

/-- `StreamingSession.start_tts_playback` (`websocket_handler.py` lines
195-201). -/
def startTtsPlayback (seq : ℕ) (s : Session) : List ServerMsg × Session :=
  ([.status .speaking], { s with is_speaking := true, tts_sequence := some seq })

/-- `StreamingSession.end_tts_playback` (`websocket_handler.py` lines
203-209). -/
def endTtsPlayback (s : Session) : List ServerMsg × Session :=
  ([.status .listening], { s with is_speaking := false, tts_sequence := none })

/-- The intended coupling of the two TTS fields (claim C10): the session is
marked as speaking exactly when a TTS sequence is in flight. -/
def SessionInv (s : Session) : Prop :=
  s.is_speaking = true ↔ s.tts_sequence ≠ none

/-- The id string built by `WebSocketManager.create_session`:
`f"session-{n}"`. -/
def sessionIdString (n : ℕ) : String :=
  "session-" ++ toString n

/-- `WebSocketManager` state (`websocket_handler.py` lines 228-231): the live
session map (kept as an association list) and the id counter. -/
structure WebSocketManager where
  sessions : List (String × Session)
  session_counter : ℕ

/-- `WebSocketManager.__init__`. -/
def initManager : WebSocketManager :=
  { sessions := [], session_counter := 0 }

/-- `WebSocketManager.create_session` (`websocket_handler.py` lines 233-240):
bump the counter, mint the id `session-{counter}`, register a fresh session
under it.  Returns the numeric id together with the new manager state. -/
noncomputable def createSession (m : WebSocketManager) : ℕ × WebSocketManager :=
  let n := m.session_counter + 1
  (n, { sessions := m.sessions ++ [(sessionIdString n, initSession (sessionIdString n))],
        session_counter := n })

/-- `WebSocketManager.remove_session` (`websocket_handler.py` lines 242-246):
delete the entry with the given id, if present; the counter is untouched. -/
def removeSession (sid : String) (m : WebSocketManager) : WebSocketManager :=
  { m with sessions := m.sessions.filter fun p => p.1 ≠ sid }

/-- Interleaved registrar operations, as issued by the connection handlers. -/
inductive MgrOp where
  | create
  | remove (sid : String)

/-- Run a list of registrar operations, recording (in order) the numeric id
issued by each `create`. -/
noncomputable def runOps (ops : List MgrOp) (m : WebSocketManager) :
    WebSocketManager × List ℕ :=
  match ops with
  | [] => (m, [])
  | .create :: rest =>
      let p := createSession m
      let q := runOps rest p.2
      (q.1, p.1 :: q.2)
  | .remove sid :: rest => runOps rest (removeSession sid m)

/-! ### Basic lemmas about the energy computation -/

theorem calculate_energy_nil (fmt : AudioFormat) : calculate_energy fmt [] = 0 := by
  simp [calculate_energy]

theorem calculate_energy_replicate (fmt : AudioFormat) (n : ℕ) (c : ℝ) (hn : n ≠ 0) :
    calculate_energy fmt (List.replicate n c) = |normSample fmt c| := by
  have hlen : (List.replicate n c).length = n := List.length_replicate n c
  simp only [calculate_energy, hlen, hn, if_false, List.map_replicate, List.sum_replicate,
    nsmul_eq_mul]
  rw [mul_div_cancel_left₀ _ (by exact_mod_cast hn)]
  exact Real.sqrt_sq_eq_abs _

theorem calculate_energy_nonneg (fmt : AudioFormat) (frame : List ℝ) :
    0 ≤ calculate_energy fmt frame := by
  unfold calculate_energy
  split
  · exact le_refl 0
  · exact Real.sqrt_nonneg _

/-! ### Step lemmas for `processFrame` -/

theorem processFrame_silence_below (fmt : AudioFormat) (g : List ℝ)
    (v : VoiceActivityDetector) (hst : v.state = .silence)
    (hg : calculate_energy fmt g ≤ v.config.energy_threshold) :
    processFrame fmt g v =
      (none, { v with energy_history := pushHistory v (calculate_energy fmt g),
                      speech_frames := 0 }) := by
  obtain ⟨cfg, st, sf, sif, hist, mx⟩ := v
  obtain rfl : st = .silence := hst
  simp only [processFrame]
  rw [if_neg (not_lt.mpr hg)]

theorem processFrame_silence_above_small (fmt : AudioFormat) (g : List ℝ)
    (v : VoiceActivityDetector) (hst : v.state = .silence)
    (hg : v.config.energy_threshold < calculate_energy fmt g)
    (hlt : v.speech_frames + 1 < v.config.speech_pad_frames) :
    processFrame fmt g v =
      (none, { v with energy_history := pushHistory v (calculate_energy fmt g),
                      speech_frames := v.speech_frames + 1 }) := by
  obtain ⟨cfg, st, sf, sif, hist, mx⟩ := v
  obtain rfl : st = .silence := hst
  replace hlt : sf + 1 < cfg.speech_pad_frames := hlt
  simp only [processFrame]
  rw [if_pos hg, if_neg (by omega)]

theorem processFrame_silence_above_trigger (fmt : AudioFormat) (g : List ℝ)
    (v : VoiceActivityDetector) (hst : v.state = .silence)
    (hg : v.config.energy_threshold < calculate_energy fmt g)
    (hge : v.config.speech_pad_frames ≤ v.speech_frames + 1) :
    processFrame fmt g v =
      (some .speech_start,
        { v with energy_history := pushHistory v (calculate_energy fmt g),
                 state := .speech, speech_frames := v.speech_frames + 1,
                 silence_frames := 0 }) := by
  obtain ⟨cfg, st, sf, sif, hist, mx⟩ := v
  obtain rfl : st = .silence := hst
  simp only [processFrame]
  rw [if_pos hg, if_pos hge]

theorem processFrame_config (fmt : AudioFormat) (g : List ℝ)
    (v : VoiceActivityDetector) :
    (processFrame fmt g v).2.config = v.config ∧
      (processFrame fmt g v).2.max_history_size = v.max_history_size := by
  obtain ⟨cfg, st, sf, sif, hist, mx⟩ := v
  cases st <;> simp only [processFrame] <;> split_ifs <;> exact ⟨rfl, rfl⟩

/-! ### Runs of frames through the silence state (claim C4) -/

theorem processFrames_silence_run (fmt : AudioFormat) (frames : List (List ℝ)) :
    ∀ v : VoiceActivityDetector, v.state = .silence →
      (∀ f ∈ frames, v.config.energy_threshold < calculate_energy fmt f) →
      v.speech_frames + frames.length < v.config.speech_pad_frames →
      (processFrames fmt frames v).1 = List.replicate frames.length none ∧
        (processFrames fmt frames v).2.state = .silence ∧
        (processFrames fmt frames v).2.speech_frames = v.speech_frames + frames.length ∧
        (processFrames fmt frames v).2.config = v.config := by
  induction frames with
  | nil => intro v hst _ _; exact ⟨rfl, hst, rfl, rfl⟩
  | cons f rest ih =>
      intro v hst habove hlt
      have hf : v.config.energy_threshold < calculate_energy fmt f :=
        habove f (List.mem_cons_self f rest)
      have hstep := processFrame_silence_above_small fmt f v hst hf (by
        simp only [List.length_cons] at hlt; omega)
      have hev : (processFrame fmt f v).1 = none := by simp only [hstep]
      have hwst : (processFrame fmt f v).2.state = VADState.silence := by
        simp only [hstep]; exact hst
      have hwsf : (processFrame fmt f v).2.speech_frames = v.speech_frames + 1 := by
        simp only [hstep]
      have hwcfg : (processFrame fmt f v).2.config = v.config := by
        simp only [hstep]
      have hrec := ih ((processFrame fmt f v).2)
        hwst
        (by intro g hg; rw [hwcfg]; exact habove g (List.mem_cons_of_mem f hg))
        (by rw [hwcfg, hwsf]; simp only [List.length_cons] at hlt ⊢; omega)
      simp only [processFrames, List.length_cons]
      refine ⟨?_, hrec.2.1, ?_, ?_⟩
      · rw [List.replicate_succ]
        exact congrArg₂ _ hev hrec.1
      · rw [hrec.2.2.1, hwsf]; omega
      · rw [hrec.2.2.2, hwcfg]

theorem processFrames_silence_trigger (fmt : AudioFormat) (frames : List (List ℝ)) :
    ∀ v : VoiceActivityDetector, v.state = .silence →
      (∀ f ∈ frames, v.config.energy_threshold < calculate_energy fmt f) →
      frames ≠ [] →
      v.speech_frames + frames.length = v.config.speech_pad_frames →
      (processFrames fmt frames v).1
          = List.replicate (frames.length - 1) none ++ [some .speech_start] ∧
        (processFrames fmt frames v).2.state = .speech := by
  induction frames with
  | nil => intro v _ _ hne _; exact absurd rfl hne
  | cons f rest ih =>
      intro v hst habove _ hsum
      have hf : v.config.energy_threshold < calculate_energy fmt f :=
        habove f (List.mem_cons_self f rest)
      by_cases hrest : rest = []
      · subst hrest
        have hstep := processFrame_silence_above_trigger fmt f v hst hf (by
          simp only [List.length_cons, List.length_nil] at hsum; omega)
        simp [processFrames, hstep]
      · have hstep := processFrame_silence_above_small fmt f v hst hf (by
          have : 0 < rest.length := List.length_pos.mpr hrest
          simp only [List.length_cons] at hsum; omega)
        have hev : (processFrame fmt f v).1 = none := by simp only [hstep]
        have hwst : (processFrame fmt f v).2.state = VADState.silence := by
          simp only [hstep]; exact hst
        have hwsf : (processFrame fmt f v).2.speech_frames = v.speech_frames + 1 := by
          simp only [hstep]
        have hwcfg : (processFrame fmt f v).2.config = v.config := by
          simp only [hstep]
        have hrec := ih ((processFrame fmt f v).2)
          hwst
          (by intro g hg; rw [hwcfg]; exact habove g (List.mem_cons_of_mem f hg))
          hrest
          (by rw [hwcfg, hwsf]; simp only [List.length_cons] at hsum ⊢; omega)
        simp only [processFrames, List.length_cons]
        constructor
        · have hlen : rest.length - 1 + 1 = rest.length :=
            Nat.succ_pred_eq_of_pos (List.length_pos.mpr hrest)
          rw [hev, hrec.1, Nat.add_sub_cancel, ← hlen, List.replicate_succ]
          simp
        · exact hrec.2

/-! ### `process_chunk` versus sequential `process_frame` calls (claim C3) -/

theorem processChunk_exact (fmt : AudioFormat) :
    ∀ (k : ℕ) (l : List ℝ) (v : VoiceActivityDetector),
      0 < v.config.frame_size → l.length = k * v.config.frame_size →
      processChunk fmt l v
          = ((processFrames fmt (consecFrames v.config.frame_size l) v).1.reduceOption,
             (processFrames fmt (consecFrames v.config.frame_size l) v).2)
        ∧ (consecFrames v.config.frame_size l).length = k := by
  intro k
  induction k with
  | zero =>
      intro l v hfs hlen
      have hnil : l = [] := List.eq_nil_of_length_eq_zero (by simpa using hlen)
      subst hnil
      rw [processChunk, consecFrames]
      simp [processFrames]
  | succ k ih =>
      intro l v hfs hlen
      have hle : v.config.frame_size ≤ l.length := by
        rw [hlen]
        calc v.config.frame_size = 1 * v.config.frame_size := (one_mul _).symm
        _ ≤ (k + 1) * v.config.frame_size :=
            Nat.mul_le_mul_right _ (by omega)
      have hlne : l ≠ [] := by
        intro hn
        rw [hn] at hlen
        have : 0 < (k + 1) * v.config.frame_size := Nat.mul_pos (by omega) hfs
        simp at hlen
        omega
      have hcond : ¬ (v.config.frame_size = 0 ∨ l = []) := by
        push_neg
        exact ⟨by omega, hlne⟩
      have htake : (l.take v.config.frame_size).length = v.config.frame_size := by
        rw [List.length_take]
        omega
      have hdrop : (l.drop v.config.frame_size).length = k * v.config.frame_size := by
        rw [List.length_drop, hlen]
        rw [Nat.succ_mul]
        omega
      have hcfg := processFrame_config fmt (l.take v.config.frame_size) v
      have hrec := ih (l.drop v.config.frame_size)
        ((processFrame fmt (l.take v.config.frame_size) v).2)
        (by rw [hcfg.1]; exact hfs) (by rw [hcfg.1]; exact hdrop)
      rw [processChunk, dif_neg hcond, consecFrames]
      rw [dif_neg hcond]
      simp only [htake, lt_irrefl, if_false]
      rw [hcfg.1] at hrec
      constructor
      · simp only [processFrames]
        rw [hrec.1]
        cases hev : (processFrame fmt (l.take v.config.frame_size) v).1 with
        | none => simp [List.reduceOption_cons_of_none]
        | some a => simp [List.reduceOption_cons_of_some]
      · simp only [List.length_cons, hrec.2]

theorem processChunk_pad (fmt : AudioFormat) :
    ∀ (frames : List (List ℝ)) (r : List ℝ) (v : VoiceActivityDetector),
      0 < v.config.frame_size →
      (∀ f ∈ frames, f.length = v.config.frame_size) →
      r ≠ [] → r.length < v.config.frame_size →
      processChunk fmt (frames.join ++ r) v
          = ((processFrames fmt
                (frames ++ [r ++ List.replicate (v.config.frame_size - r.length) 0]) v).1.reduceOption,
             (processFrames fmt
                (frames ++ [r ++ List.replicate (v.config.frame_size - r.length) 0]) v).2) := by
  intro frames
  induction frames with
  | nil =>
      intro r v hfs hflen hrne hrlt
      have hcond : ¬ (v.config.frame_size = 0 ∨ ([] : List (List ℝ)).join ++ r = []) := by
        push_neg
        constructor
        · omega
        · simpa using hrne
      rw [processChunk, dif_neg hcond]
      simp only [List.join_nil, List.nil_append]
      have htake : r.take v.config.frame_size = r :=
        List.take_of_length_le (le_of_lt hrlt)
      have hdrop : r.drop v.config.frame_size = [] := by
        rw [List.drop_eq_nil_iff]
        omega
      rw [htake, hdrop]
      rw [if_pos hrlt]
      rw [processChunk]
      rw [dif_pos (Or.inr rfl)]
      simp only [processFrames, List.append_nil]
      cases hev : (processFrame fmt (r ++ List.replicate (v.config.frame_size - r.length) 0) v).1 with
      | none => simp [List.reduceOption_cons_of_none]
      | some a => simp [List.reduceOption_cons_of_some]
  | cons f rest ih =>
      intro r v hfs hflen hrne hrlt
      have hf : f.length = v.config.frame_size := hflen f (List.mem_cons_self f rest)
      have hcond : ¬ (v.config.frame_size = 0 ∨ (f :: rest).join ++ r = []) := by
        push_neg
        constructor
        · omega
        · simp only [List.join_cons, List.append_assoc]
          intro hn
          have := congrArg List.length hn
          simp only [List.length_append, List.length_nil, hf] at this
          omega
      rw [processChunk, dif_neg hcond]
      have hjoin : (f :: rest).join ++ r = f ++ (rest.join ++ r) := by
        simp [List.join_cons, List.append_assoc]
      have htake : ((f :: rest).join ++ r).take v.config.frame_size = f := by
        rw [hjoin, ← hf, List.take_left]
      have hdrop : ((f :: rest).join ++ r).drop v.config.frame_size = rest.join ++ r := by
        rw [hjoin, ← hf, List.drop_left]
      rw [htake, hdrop]
      have hnlt : ¬ f.length < v.config.frame_size := by rw [hf]; exact lt_irrefl _
      simp only [hnlt, if_false]
      have hcfg := processFrame_config fmt f v
      have hrec := ih r ((processFrame fmt f v).2)
        (by rw [hcfg.1]; exact hfs)
        (by intro g hg; rw [hcfg.1]; exact hflen g (List.mem_cons_of_mem f hg))
        hrne
        (by rw [hcfg.1]; exact hrlt)
      rw [hcfg.1] at hrec
      rw [hrec]
      simp only [List.cons_append, processFrames]
      cases hev : (processFrame fmt f v).1 with
      | none => simp [List.reduceOption_cons_of_none]
      | some a => simp [List.reduceOption_cons_of_some]

/-! ### Session-level helper lemmas -/

theorem handleVadEvent_speech_start_barge (s : Session) (S : ℕ)
    (h1 : s.is_speaking = true) (h2 : s.tts_sequence = some S) :
    handleVadEvent .speech_start s =
      ([.vadEvent .speech_start (getAverageEnergy s.vad), .bargeIn S,
        .status .listening, .status .listening],
       { s with is_listening := true, is_speaking := false, tts_sequence := none }) := by
  obtain ⟨sid, lis, spk, buf, seqc, tts, vad⟩ := s
  obtain rfl : spk = true := h1
  obtain rfl : tts = some S := h2
  simp [handleVadEvent, handleBargeIn]

theorem handleVadEvent_speech_start_no_tts (s : Session)
    (h2 : s.tts_sequence = none) :
    handleVadEvent .speech_start s =
      ([.vadEvent .speech_start (getAverageEnergy s.vad), .status .listening],
       { s with is_listening := true }) := by
  obtain ⟨sid, lis, spk, buf, seqc, tts, vad⟩ := s
  obtain rfl : tts = none := h2
  simp [handleVadEvent, handleBargeIn]

theorem sessionInv_handleBargeIn (s : Session) (h : SessionInv s) :
    SessionInv (handleBargeIn s).2 := by
  obtain ⟨sid, lis, spk, buf, seqc, tts, vad⟩ := s
  cases tts with
  | none => exact h
  | some S => simp [handleBargeIn, SessionInv]

theorem sessionInv_generateFinalTranscript (s : Session) (h : SessionInv s) :
    SessionInv (generateFinalTranscript s).2 := by
  obtain ⟨sid, lis, spk, buf, seqc, tts, vad⟩ := s
  simp only [generateFinalTranscript]
  split <;> exact h

theorem sessionInv_handleVadEvent (e : VADEvent) (s : Session) (h : SessionInv s) :
    SessionInv (handleVadEvent e s).2 := by
  cases e with
  | speech_start =>
      simp only [handleVadEvent]
      split
      · exact sessionInv_handleBargeIn _ h
      · exact h
  | speech_end =>
      simp only [handleVadEvent]
      exact sessionInv_generateFinalTranscript _ h

theorem sessionInv_handleVadEvents (events : List VADEvent) :
    ∀ s : Session, SessionInv s → SessionInv (handleVadEvents events s).2 := by
  induction events with
  | nil => intro s h; exact h
  | cons e rest ih =>
      intro s h
      exact ih _ (sessionInv_handleVadEvent e s h)

theorem sessionInv_speechPartialStage (s : Session) (h : SessionInv s) :
    SessionInv (speechPartialStage s).2 := by
  simp only [speechPartialStage]
  split <;> exact h

theorem sessionInv_handleAudioInput (d : Option (List ℝ)) (s : Session)
    (h : SessionInv s) : SessionInv (handleAudioInput d s).2 := by
  cases d with
  | none => exact h
  | some samples =>
      simp only [handleAudioInput]
      exact sessionInv_speechPartialStage _ (sessionInv_handleVadEvents _ _ h)

theorem sessionInv_handleControl (a : ControlAction) (s : Session)
    (h : SessionInv s) : SessionInv (handleControl a s).2 := by
  cases a with
  | start_listening => exact h
  | stop_listening =>
      simp only [handleControl]
      split
      · exact sessionInv_generateFinalTranscript _ h
      · exact h
  | cancel_tts =>
      simp only [handleControl]
      split
      · exact sessionInv_handleBargeIn _ h
      · exact h

/-! ### Registrar trace lemma (claim C8) -/

theorem runOps_counter_lt (ops : List MgrOp) :
    ∀ m : WebSocketManager,
      (∀ i ∈ (runOps ops m).2, m.session_counter < i) ∧
        List.Chain' (· < ·) (runOps ops m).2 := by
  induction ops with
  | nil => intro m; simp [runOps]
  | cons op rest ih =>
      intro m
      cases op with
      | create =>
          have hc : (createSession m).2.session_counter = m.session_counter + 1 := rfl
          have hrec := ih (createSession m).2
          rw [hc] at hrec
          constructor
          · intro i hi
            simp only [runOps, List.mem_cons] at hi
            rcases hi with rfl | hi
            · exact Nat.lt_succ_self _
            · exact Nat.lt_of_succ_lt (hrec.1 i hi)
          · simp only [runOps]
            rw [List.chain'_cons']
            refine ⟨?_, hrec.2⟩
            intro y hy
            exact hrec.1 y (List.mem_of_mem_head? hy)
      | remove sid =>
          have hc : (removeSession sid m).session_counter = m.session_counter := rfl
          have hrec := ih (removeSession sid m)
          rw [hc] at hrec
          simpa only [runOps] using hrec

/-! ### Claim theorems -/

/-- Claim C2: when `tts_sequence` is unset, barge-in handling emits no
outbound message and leaves the entire session state unchanged; this covers
every trigger path (`speech_start` and `cancel_tts` both delegate to
`handle_barge_in`, and the `cancel_tts` wrapper is also shown directly). -/
theorem claimC2_barge_in_noop (s : Session) (h : s.tts_sequence = none) :
    handleBargeIn s = ([], s) ∧ handleControl .cancel_tts s = ([], s) := by
  obtain ⟨sid, lis, spk, buf, seqc, tts, vad⟩ := s
  obtain rfl : tts = none := h
  exact ⟨rfl, by simp [handleControl, handleBargeIn]⟩

/-- Witness for C2 at a concrete freshly-created session. -/
theorem claimC2_witness :
    handleBargeIn (initSession "w2") = ([], initSession "w2") :=
  (claimC2_barge_in_noop (initSession "w2") rfl).1

/-- Claim C6 (counterexample): on a failed audio decode the session emits
exactly one `Error` message, but its `code` field is the catch-all string
`"audio_processing_error"`, not `AudioDecodeError` as the claim states. -/
theorem claimC6_counterexample :
    handleAudioInput none (initSession "c6")
        = ([.error "audio_processing_error"], initSession "c6")
      ∧ "audio_processing_error" ≠ "AudioDecodeError" :=
  ⟨rfl, by decide⟩

/-- Claim C6 (amended): an `AudioInput` whose `data` fails base64 decoding
yields exactly one `Error` message with code `"audio_processing_error"`, and
the session state (audio buffer, VAD, flags) is returned unchanged — the
handler returns normally, so the session keeps processing later messages. -/
theorem claimC6_amended (s : Session) :
    handleAudioInput none s = ([.error "audio_processing_error"], s) := rfl

/-- Claim C7: the partial-transcript stage of `handle_audio_input` emits one
non-final transcript exactly when the VAD is in the Speech state and the
buffer exceeds 16000 bytes, never mutating the session (in particular the
buffer); otherwise it emits nothing; and `handle_audio_input` on a decoded
chunk is exactly the VAD-event loop followed by this stage. -/
theorem claimC7_transcript_stage (s : Session) :
    (s.vad.vadSpeaking = true ∧ 16000 < s.bufferBytes →
        speechPartialStage s = ([.transcript false], s))
    ∧ (¬ (s.vad.vadSpeaking = true ∧ 16000 < s.bufferBytes) →
        speechPartialStage s = ([], s))
    ∧ ∀ c : List ℝ,
        handleAudioInput (some c) s =
          ((handleVadEvents (processChunk .pcm16 c s.vad).1
              { s with audio_buffer := s.audio_buffer ++ c,
                       vad := (processChunk .pcm16 c s.vad).2 }).1
            ++ (speechPartialStage (handleVadEvents (processChunk .pcm16 c s.vad).1
                  { s with audio_buffer := s.audio_buffer ++ c,
                           vad := (processChunk .pcm16 c s.vad).2 }).2).1,
           (speechPartialStage (handleVadEvents (processChunk .pcm16 c s.vad).1
                { s with audio_buffer := s.audio_buffer ++ c,
                         vad := (processChunk .pcm16 c s.vad).2 }).2).2) := by
  refine ⟨?_, ?_, ?_⟩
  · intro h
    simp [speechPartialStage, generatePartialTranscript, h]
  · intro h
    simp [speechPartialStage, h]
  · intro c
    rfl

/-- Witness for C7: on a fresh session (VAD in Silence, empty buffer) the
partial-transcript stage emits nothing. -/
theorem claimC7_witness :
    speechPartialStage (initSession "w7") = ([], initSession "w7") :=
  (claimC7_transcript_stage (initSession "w7")).2.1
    (by simp [initSession, VoiceActivityDetector.init, VoiceActivityDetector.vadSpeaking])

/-- Claim C9: `adapt_threshold(p)` is the identity when the history has fewer
than 10 samples; with at least 10 samples it replaces the configured
threshold by the p-th percentile of the history exactly when the absolute
change exceeds 0.005, and in every case touches nothing but
`config.energy_threshold` (the state, counters and history fields of the
result record are those of the input). -/
theorem claimC9_adapt_threshold (p : ℝ) (v : VoiceActivityDetector) :
    (v.energy_history.length < 10 → adaptThreshold p v = v)
    ∧ (10 ≤ v.energy_history.length →
        (0.005 < |npPercentile v.energy_history p - v.config.energy_threshold| →
            adaptThreshold p v
              = { v with config := { v.config with
                    energy_threshold := npPercentile v.energy_history p } })
        ∧ (¬ 0.005 < |npPercentile v.energy_history p - v.config.energy_threshold| →
            adaptThreshold p v = v)) := by
  constructor
  · intro h
    simp only [adaptThreshold]
    rw [if_pos h]
  · intro h
    constructor
    · intro hgt
      simp only [adaptThreshold]
      rw [if_neg (by omega), if_pos hgt]
    · intro hle
      simp only [adaptThreshold]
      rw [if_neg (by omega), if_neg hle]

/-- Witness for C9 at a fresh detector, whose empty history is below the
10-sample requirement. -/
theorem claimC9_witness : adaptThreshold 75 defaultVAD = defaultVAD :=
  (claimC9_adapt_threshold 75 defaultVAD).1
    (by norm_num [defaultVAD, VoiceActivityDetector.init])

/-- Claim C10: the implicit invariant `is_speaking = true ↔ tts_sequence ≠
none` holds at session creation and is preserved by `start_tts_playback`,
`end_tts_playback`, `handle_barge_in`, `handle_control` (every action) and
`handle_audio_input` (every input). -/
theorem claimC10_speaking_tts_invariant :
    (∀ sid, SessionInv (initSession sid))
    ∧ ∀ s : Session, SessionInv s →
        (∀ q, SessionInv (startTtsPlayback q s).2)
        ∧ SessionInv (endTtsPlayback s).2
        ∧ SessionInv (handleBargeIn s).2
        ∧ (∀ a, SessionInv (handleControl a s).2)
        ∧ (∀ d, SessionInv (handleAudioInput d s).2) := by
  constructor
  · intro sid
    simp [SessionInv, initSession]
  · intro s h
    exact ⟨fun q => by simp [SessionInv, startTtsPlayback],
           by simp [SessionInv, endTtsPlayback],
           sessionInv_handleBargeIn s h,
           fun a => sessionInv_handleControl a s h,
           fun d => sessionInv_handleAudioInput d s h⟩

/-- Witness for C10: starting TTS playback on a fresh session preserves the
invariant. -/
theorem claimC10_witness : SessionInv (startTtsPlayback 5 (initSession "w10")).2 :=
  (claimC10_speaking_tts_invariant.2 (initSession "w10")
    (claimC10_speaking_tts_invariant.1 "w10")).1 5

/-- Claim C8: over any interleaving of create/remove operations, the numeric
ids issued by `create_session` form a strictly increasing (hence pairwise
distinct) sequence, and every issued id strictly exceeds the registrar's
starting counter — so removal (which never touches the counter) can never
cause an id to be reissued. -/
theorem claimC8_session_ids (ops : List MgrOp) (m : WebSocketManager) :
    List.Chain' (· < ·) (runOps ops m).2
    ∧ List.Pairwise (· ≠ ·) (runOps ops m).2
    ∧ ∀ i ∈ (runOps ops m).2, m.session_counter < i := by
  have h := runOps_counter_lt ops m
  refine ⟨h.2, ?_, h.1⟩
  exact (List.chain'_iff_pairwise.mp h.2).imp ne_of_lt

/-- Witness for C8 at a concrete operation trace (create, remove the first
session, create again). -/
theorem claimC8_witness :
    List.Chain' (· < ·)
      (runOps [MgrOp.create, MgrOp.remove (sessionIdString 1), MgrOp.create]
        initManager).2 :=
  (claimC8_session_ids _ _).1

/-- Claim C1: with `is_speaking = true` and `tts_sequence = some S`, handling
a `speech_start` VAD event emits, immediately after the `VadEvent` message,
`BargeIn(cancelled_sequence = S)` and then `Status(listening)` (followed by
the loop's own `Status(listening)`), and leaves `tts_sequence` unset and
`is_speaking` false; moreover inside `handle_audio_input`, whenever the
processed chunk's first VAD event is `speech_start`, the emitted message
stream starts with exactly that `VadEvent`, `BargeIn S`, `Status(listening)`
sequence. -/
theorem claimC1_barge_in_order (s : Session) (S : ℕ)
    (h1 : s.is_speaking = true) (h2 : s.tts_sequence = some S) :
    handleVadEvent .speech_start s =
      ([.vadEvent .speech_start (getAverageEnergy s.vad), .bargeIn S,
        .status .listening, .status .listening],
       { s with is_listening := true, is_speaking := false, tts_sequence := none })
    ∧ ∀ (c : List ℝ) (rest : List VADEvent) (v' : VoiceActivityDetector),
        processChunk .pcm16 c s.vad = (.speech_start :: rest, v') →
        ∃ tl, (handleAudioInput (some c) s).1
            = .vadEvent .speech_start (getAverageEnergy v') :: .bargeIn S ::
              .status .listening :: .status .listening :: tl := by
  refine ⟨handleVadEvent_speech_start_barge s S h1 h2, ?_⟩
  intro c rest v' hpc
  have hstep := handleVadEvent_speech_start_barge
    { s with audio_buffer := s.audio_buffer ++ c, vad := v' } S h1 h2
  refine ⟨(handleVadEvents rest (handleVadEvent .speech_start
      { s with audio_buffer := s.audio_buffer ++ c, vad := v' }).2).1
    ++ (speechPartialStage (handleVadEvents rest (handleVadEvent .speech_start
      { s with audio_buffer := s.audio_buffer ++ c, vad := v' }).2).2).1, ?_⟩
  simp only [handleAudioInput, hpc, handleVadEvents]
  rw [hstep]
  simp

/-- Witness for C1: a session with TTS sequence 7 in flight, fed a
`speech_start` event. -/
theorem claimC1_witness :
    handleVadEvent .speech_start
        { initSession "w1" with is_speaking := true, tts_sequence := some 7 }
      = ([.vadEvent .speech_start
            (getAverageEnergy
              ({ initSession "w1" with
                 is_speaking := true,
                 tts_sequence := some 7 } : Session).vad),
          .bargeIn 7, .status .listening, .status .listening],
         { initSession "w1" with
           is_listening := true,
           is_speaking := false,
           tts_sequence := none }) :=
  (claimC1_barge_in_order
    { initSession "w1" with is_speaking := true, tts_sequence := some 7 }
    7 rfl rfl).1

/-- Claim C3: for a decoded buffer of exactly `k * frame_size` samples,
`process_chunk` returns exactly the events (in order) and the final detector
state of `k` sequential `process_frame` calls on the `k` consecutive frames;
and when a shorter remainder `r` follows the full frames, the remainder is
zero-padded to `frame_size` and processed as the last frame. -/
theorem claimC3_chunk_eq_sequential_frames (fmt : AudioFormat)
    (v : VoiceActivityDetector) (hfs : 0 < v.config.frame_size) :
    (∀ (k : ℕ) (l : List ℝ), l.length = k * v.config.frame_size →
        processChunk fmt l v
            = ((processFrames fmt (consecFrames v.config.frame_size l) v).1.reduceOption,
               (processFrames fmt (consecFrames v.config.frame_size l) v).2)
          ∧ (consecFrames v.config.frame_size l).length = k)
    ∧ (∀ (frames : List (List ℝ)) (r : List ℝ),
        (∀ f ∈ frames, f.length = v.config.frame_size) → r ≠ [] →
        r.length < v.config.frame_size →
        processChunk fmt (frames.join ++ r) v
            = ((processFrames fmt
                  (frames ++ [r ++ List.replicate (v.config.frame_size - r.length) 0])
                  v).1.reduceOption,
               (processFrames fmt
                  (frames ++ [r ++ List.replicate (v.config.frame_size - r.length) 0])
                  v).2)) :=
  ⟨fun k l hl => processChunk_exact fmt k l v hfs hl,
   fun frames r hfl hrne hrlt => processChunk_pad fmt frames r v hfs hfl hrne hrlt⟩

/-- Witness for C3: a 960-sample buffer through the default detector
(frame size 480) equals the two sequential frame calls. -/
theorem claimC3_witness :
    processChunk .pcm16 (List.replicate 960 (0:ℝ)) defaultVAD
        = ((processFrames .pcm16
              (consecFrames defaultVAD.config.frame_size (List.replicate 960 (0:ℝ)))
              defaultVAD).1.reduceOption,
           (processFrames .pcm16
              (consecFrames defaultVAD.config.frame_size (List.replicate 960 (0:ℝ)))
              defaultVAD).2)
      ∧ (consecFrames defaultVAD.config.frame_size (List.replicate 960 (0:ℝ))).length = 2 :=
  (claimC3_chunk_eq_sequential_frames .pcm16 defaultVAD
      (by norm_num [defaultVAD, VoiceActivityDetector.init, VADConfig.frame_size,
        defaultVADConfig])).1 2 _
    (by norm_num [defaultVAD, VoiceActivityDetector.init, VADConfig.frame_size,
      defaultVADConfig])

/-- Claim C4: from the Silence state with `speech_frames = 0` and
`speech_pad_frames = N ≥ 1`: a run of fewer than `N` above-threshold frames
emits no event at all (in particular no `speech_start`), and a following
below-threshold frame emits nothing and resets `speech_frames` to 0; a run
of exactly `N` above-threshold frames emits exactly one `speech_start`, on
the Nth frame, and moves the detector to the Speech state. -/
theorem claimC4_speech_start_run (fmt : AudioFormat) (v : VoiceActivityDetector)
    (frames : List (List ℝ)) (g : List ℝ)
    (hst : v.state = .silence) (h0 : v.speech_frames = 0)
    (hN : 1 ≤ v.config.speech_pad_frames)
    (habove : ∀ f ∈ frames, v.config.energy_threshold < calculate_energy fmt f) :
    (frames.length < v.config.speech_pad_frames →
        (processFrames fmt frames v).1 = List.replicate frames.length none
        ∧ (calculate_energy fmt g ≤ v.config.energy_threshold →
            (processFrame fmt g (processFrames fmt frames v).2).1 = none
            ∧ (processFrame fmt g (processFrames fmt frames v).2).2.speech_frames = 0))
    ∧ (frames.length = v.config.speech_pad_frames →
        (processFrames fmt frames v).1
            = List.replicate (frames.length - 1) none ++ [some .speech_start]
        ∧ (processFrames fmt frames v).2.state = .speech) := by
  constructor
  · intro hlt
    have hrun := processFrames_silence_run fmt frames v hst habove (by omega)
    refine ⟨hrun.1, ?_⟩
    intro hbelow
    have hstep := processFrame_silence_below fmt g ((processFrames fmt frames v).2)
      hrun.2.1 (by rw [hrun.2.2.2]; exact hbelow)
    exact ⟨by simp only [hstep], by simp only [hstep]⟩
  · intro heq
    have hne : frames ≠ [] := by
      intro hn
      rw [hn] at heq
      simp only [List.length_nil] at heq
      omega
    exact processFrames_silence_trigger fmt frames v hst habove hne (by omega)

/-- Witness for C4: ten 480-sample frames of constant amplitude 16384
(normalised energy 1/2 > 0.01) through the default detector
(`speech_pad_frames = 10`) produce nine silent steps and then one
`speech_start`, ending in the Speech state. -/
theorem claimC4_witness :
    (processFrames .pcm16 (List.replicate 10 (List.replicate 480 (16384:ℝ)))
        defaultVAD).1
        = List.replicate 9 none ++ [some VADEvent.speech_start]
    ∧ (processFrames .pcm16 (List.replicate 10 (List.replicate 480 (16384:ℝ)))
        defaultVAD).2.state = VADState.speech := by
  have hN : defaultVAD.config.speech_pad_frames = 10 := by
    norm_num [defaultVAD, VoiceActivityDetector.init, VADConfig.speech_pad_frames,
      defaultVADConfig]
  have habove : ∀ f ∈ List.replicate 10 (List.replicate 480 (16384:ℝ)),
      defaultVAD.config.energy_threshold < calculate_energy .pcm16 f := by
    intro f hf
    rw [List.eq_of_mem_replicate hf]
    rw [calculate_energy_replicate .pcm16 480 16384 (by norm_num)]
    have hthr : defaultVAD.config.energy_threshold = 0.01 := rfl
    have hns : normSample .pcm16 (16384:ℝ) = 1/2 := by norm_num [normSample]
    rw [hthr, hns, abs_of_nonneg (by norm_num)]
    norm_num
  have h := (claimC4_speech_start_run .pcm16 defaultVAD
      (List.replicate 10 (List.replicate 480 (16384:ℝ))) [] rfl rfl
      (by rw [hN]; norm_num) habove).2 (by rw [List.length_replicate, hN])
  rw [List.length_replicate] at h
  exact h

/-- Claim C5 (counterexample): on the 8-bit frame `[64]` the code's energy is
64 (the raw sample magnitude, unnormalised), whereas the claimed RMS — with
8-bit samples divided by their full-scale value — is 1/2; the two disagree,
so `calculate_energy` does not normalise 8-bit samples as the claim states. -/
theorem claimC5_counterexample :
    calculate_energy .pcm8 [(64:ℝ)] = 64
    ∧ claimedRmsC5 .pcm8 [(64:ℝ)] = 1/2
    ∧ calculate_energy .pcm8 [(64:ℝ)] ≠ claimedRmsC5 .pcm8 [(64:ℝ)] := by
  have h1 : calculate_energy .pcm8 [(64:ℝ)] = 64 := by
    have h := calculate_energy_replicate .pcm8 1 64 (by norm_num)
    simp only [List.replicate_one] at h
    rw [h, show normSample .pcm8 (64:ℝ) = 64 from rfl, abs_of_nonneg (by norm_num)]
  have h2 : claimedRmsC5 .pcm8 [(64:ℝ)] = 1/2 := by
    simp only [claimedRmsC5]
    rw [if_neg (by simp)]
    simp only [List.map_cons, List.map_nil, List.sum_cons, List.sum_nil,
      List.length_cons, List.length_nil]
    rw [show claimedNormalizeC5 .pcm8 (64:ℝ) = 1/2 from by
      norm_num [claimedNormalizeC5]]
    have harg : ((1:ℝ)/2) ^ 2 + 0 = (1/2) ^ 2 := by ring
    rw [harg]
    have hden : (((0:ℕ) + 1 : ℕ) : ℝ) = 1 := by norm_num
    rw [hden, div_one]
    exact Real.sqrt_sq (by norm_num)
  exact ⟨h1, h2, by rw [h1, h2]; norm_num⟩

/-- Claim C5 (amended): `calculate_energy` is the RMS of the samples with
16-bit samples divided by 32768 and 8-bit and float32 samples used as-is;
an empty frame yields energy 0.0 and is therefore classified non-speech for
any nonnegative threshold. -/
theorem claimC5_energy_formula (fmt : AudioFormat) (frame : List ℝ) :
    calculate_energy fmt frame = amendedRmsC5 fmt frame
    ∧ calculate_energy fmt [] = 0
    ∧ ∀ t : ℝ, 0 ≤ t → ¬ t < calculate_energy fmt [] := by
  refine ⟨?_, calculate_energy_nil fmt, ?_⟩
  · have hfun : (fun x => normSample fmt x ^ 2)
        = fun x => amendedNormalizeC5 fmt x ^ 2 := by
      funext x
      cases fmt <;> rfl
    cases frame with
    | nil => simp [calculate_energy, amendedRmsC5]
    | cons x xs =>
        simp only [calculate_energy, amendedRmsC5]
        rw [if_neg (by simp), if_neg (by simp), hfun]
  · intro t ht
    rw [calculate_energy_nil]
    exact not_lt.mpr ht

/-- Witness for C5 (amended): concrete instances — the formula on the 8-bit
frame `[64]`, and the empty frame is non-speech at the default threshold. -/
theorem claimC5_witness :
    calculate_energy .pcm8 [(64:ℝ)] = amendedRmsC5 .pcm8 [(64:ℝ)]
    ∧ ¬ (0.01:ℝ) < calculate_energy .pcm16 [] :=
  ⟨(claimC5_energy_formula .pcm8 [(64:ℝ)]).1,
   (claimC5_energy_formula .pcm16 []).2.2 0.01 (by norm_num)⟩

end UnisonSpeech
